import Mathlib

/-!
Verification development for the "The 491 — Smart P&L Analysis" repository:
the hybrid rule/AI categorizer, receipt verification lifecycle, POS batch
normalization and ledger commit, shallowly embedded from the repository's
frontend TypeScript sources and the backend code given in its design
documents (`LDD.md`, `TDD.md`).  Amounts are represented as rationals
(currency values), JavaScript/Python strings as Lean `String`.
-/

namespace P49

/-! ## Character and string utilities

Embeddings of the string operations used by the code: Python's substring
test (`kw in text`), JavaScript's `String.prototype.trim`, and the
normalization primitives (case-fold, punctuation strip) named by the spec.
-/

/-- Substring test on character lists: Python's `kw in text`. -/
def hasSub (text kw : List Char) : Bool :=
  match text with
  | [] => kw.isEmpty
  | _ :: rest => kw.isPrefixOf text || hasSub rest kw

/-- Whitespace characters recognized by trimming. -/
def isSpaceChar (c : Char) : Bool :=
  c = ' ' || c = '\t' || c = '\n' || c = '\r'

/-- Trim whitespace from both ends of a character list. -/
def trimChars (l : List Char) : List Char :=
  (l.dropWhile isSpaceChar).rdropWhile isSpaceChar

/-- JavaScript `String.prototype.trim`. -/
def jsTrim (s : String) : String :=
  ⟨trimChars s.data⟩

/-- ASCII punctuation stripped by the normalization step. -/
def PUNCT_CHARS : List Char :=
  ['.', ',', '!', '?', ';', ':', '(', ')', '[', ']', '-', '_', '/', '"',
   '#', '$', '%', '&', '*', '+', '<', '=', '>', '@', '^', '~', '|']

/-- Test for a punctuation character. -/
def isPunctChar (c : Char) : Bool :=
  PUNCT_CHARS.contains c

/-- The lowercase ASCII letters, the possible outputs of case-folding an
uppercase letter. -/
def lowercaseLetters : List Char :=
  ['a', 'b', 'c', 'd', 'e', 'f', 'g', 'h', 'i', 'j', 'k', 'l', 'm',
   'n', 'o', 'p', 'q', 'r', 's', 't', 'u', 'v', 'w', 'x', 'y', 'z']

/-- ASCII case-folding of a single character. -/
def lowerChar (c : Char) : Char :=
  match c with
  | 'A' => 'a' | 'B' => 'b' | 'C' => 'c' | 'D' => 'd' | 'E' => 'e'
  | 'F' => 'f' | 'G' => 'g' | 'H' => 'h' | 'I' => 'i' | 'J' => 'j'
  | 'K' => 'k' | 'L' => 'l' | 'M' => 'm' | 'N' => 'n' | 'O' => 'o'
  | 'P' => 'p' | 'Q' => 'q' | 'R' => 'r' | 'S' => 's' | 'T' => 't'
  | 'U' => 'u' | 'V' => 'v' | 'W' => 'w' | 'X' => 'x' | 'Y' => 'y'
  | 'Z' => 'z'
  | other => other

/-- Modelled from the spec: the backend helper `clean_text` called by
`categorize_item` (`TDD.md` §3.1) is not present under `src/`; the spec
describes the normalization as "trim, case-fold, strip punctuation" and
requires it to be deterministic and idempotent.  We strip punctuation,
case-fold, then trim. -/
def clean_text (s : String) : String :=
  ⟨trimChars ((s.data.filter (fun c => !isPunctChar c)).map lowerChar)⟩

/-! ## Category reference data

From `frontend/src/app/(dashboard)/dashboard/page.tsx` (filter options per
branch type) and `frontend/src/app/(dashboard)/dashboard/receipts/[id]/page.tsx`
(assignment options on the receipt validation page).
-/

/-- `COFFEE_CATEGORIES` from `dashboard/page.tsx`. -/
def COFFEE_CATEGORIES : List String :=
  ["C1", "C2", "C3", "C4", "C5", "C6", "C7", "C8", "C9"]

/-- `RESTAURANT_CATEGORIES` from `dashboard/page.tsx`. -/
def RESTAURANT_CATEGORIES : List String :=
  ["F1", "F2", "F3", "F4", "F5", "F6", "F7"]

/-- The branch business type (`Branch["type"]` in the frontend). -/
inductive BranchType
  | COFFEE
  | RESTAURANT
deriving DecidableEq

/-- `getCategoryOptions` from `dashboard/page.tsx`: `none` models the
`undefined` branch type. -/
def getCategoryOptions : Option BranchType → List String
  | some .COFFEE => COFFEE_CATEGORIES
  | some .RESTAURANT => RESTAURANT_CATEGORIES
  | none => []

/-- `CATEGORY_OPTIONS` from `receipts/[id]/page.tsx`: the fixed id/name list
offered in every category `select` of the receipt validation page. -/
def CATEGORY_OPTIONS : List (String × String) :=
  [("C1", "COGS (วัตถุดิบ)"),
   ("C2", "Labor (ค่าแรง)"),
   ("C3", "Rent & Place (สถานที่)"),
   ("C4", "Utilities (สาธารณูปโภค)"),
   ("C5", "Equip & Maint (อุปกรณ์)"),
   ("C6", "System & Sales (ระบบ)"),
   ("C7", "Marketing (การตลาด)"),
   ("C8", "Admin (ทั่วไป)"),
   ("C9", "Reserve (สำรองจ่าย)"),
   ("F1", "Main Ingredients (วัตถุดิบหลัก)"),
   ("F2", "Labor (ค่าแรง)"),
   ("F3", "Fuel (เชื้อเพลิง)"),
   ("F4", "Containers (ภาชนะ)"),
   ("F5", "Water & Ice (น้ำ)"),
   ("F6", "Daily Waste (ของเสีย)"),
   ("F7", "Daily Misc (เบ็ดเตล็ด)")]

/-- Category identifiers offered for assignment on the receipt validation
page (the `value` of each option rendered from `CATEGORY_OPTIONS`). -/
def assignmentOptionIds : List String :=
  CATEGORY_OPTIONS.map Prod.fst

/-! ## Categorizer

Embedding of `backend/app/services/categorization.py` as given in `LDD.md`
§3.1 (`COFFEE_KEYWORDS`, `RESTAURANT_KEYWORDS`, `categorize_line_item`).
The external classification backend (`ask_vertex_ai`, `ai_service.py`) is
not under `src/`; it is modelled from the spec below, parameterized by the
backend's observable behaviour.
-/

/-- `COFFEE_KEYWORDS` from `LDD.md`: category priority and keyword order as
declared. -/
def COFFEE_KEYWORDS : List (String × List String) :=
  [("C1", ["เมล็ด", "นม", "ไซรัป", "น้ำแข็ง", "แก้ว"]),
   ("C4", ["ไฟฟ้า", "ประปา", "internet", "wifi"])]

/-- `RESTAURANT_KEYWORDS` from `LDD.md`. -/
def RESTAURANT_KEYWORDS : List (String × List String) :=
  [("F1", ["หมู", "ไก่", "ผัก", "ข้าว", "ไข่"]),
   ("F3", ["แก๊ส", "ถ่าน"])]

/-- Rule-set selection from `categorize_line_item`:
`COFFEE_KEYWORDS if business_type == "COFFEE" else RESTAURANT_KEYWORDS`. -/
def rulesFor (business_type : String) : List (String × List String) :=
  if business_type = "COFFEE" then COFFEE_KEYWORDS else RESTAURANT_KEYWORDS

/-- The permitted category set for a business type (the frontend constants
also used as `get_category_list` in the backend prompt of `TDD.md` §3.1). -/
def allowedCategories (business_type : String) : List String :=
  if business_type = "COFFEE" then COFFEE_CATEGORIES else RESTAURANT_CATEGORIES

/-- One rule-table entry matches when some keyword of the category is a
substring of the description (`if kw in text`). -/
def catMatches (text : String) (entry : String × List String) : Bool :=
  entry.2.any (fun kw => hasSub text.data kw.data)

/-- The nested rule loop of `categorize_line_item`: first category in
declaration order with a matching keyword. -/
def ruleLookup (rules : List (String × List String)) (text : String) :
    Option String :=
  match rules with
  | [] => none
  | entry :: rest =>
    if catMatches text entry then some entry.1 else ruleLookup rest text

/-- The dict returned by the classification backend, as read by
`categorize_line_item` via `.get("id")` and `.get("confidence", 0.8)`. -/
structure AiResult where
  id : Option String
  confidence : Option ℚ
deriving DecidableEq

/-- Observable behaviour of the external classification backend: either the
call fails (unreachable / error) or it responds with a category identifier
and an optional confidence. -/
inductive BackendBehavior
  | unavailable
  | responds (id : String) (confidence : Option ℚ)
deriving DecidableEq

/-- Modelled from the spec: `ask_vertex_ai` (`ai_service.py`) is not under
`src/`.  Per spec §4.1 the backend is invoked with the business type's valid
category set, a failure "must not raise to the caller's caller" and an
out-of-set identifier makes the categorizer fail closed, leaving the item
uncategorized with "category identifier null, confidence 0". -/
def ask_vertex_ai (b : BackendBehavior) (allowed : List String) : AiResult :=
  match b with
  | .unavailable => ⟨none, some 0⟩
  | .responds id conf =>
    if allowed.contains id then ⟨some id, conf⟩ else ⟨none, some 0⟩

/-- Result dict of `categorize_line_item`:
`{"category_id": ..., "confidence": ..., "source": ...}`. -/
structure CatResult where
  category_id : Option String
  confidence : ℚ
  source : String
deriving DecidableEq

/-- `categorize_line_item` from `LDD.md` §3.1, parameterized by the
behaviour of the external backend: rule-based matching first (Layer 1),
AI fallback only if no rule matches (Layer 2), with the default confidence
`0.8` when the backend supplies none. -/
def categorize_line_item (text business_type : String)
    (backend : BackendBehavior) : CatResult :=
  match ruleLookup (rulesFor business_type) text with
  | some cat_id => ⟨some cat_id, 1, "RULE"⟩
  | none =>
    let ai_result := ask_vertex_ai backend (allowedCategories business_type)
    ⟨ai_result.id, ai_result.confidence.getD (8 / 10), "AI"⟩

/-! ## Receipt lifecycle and verification

Data model from `LDD.md` §2 (`ReceiptStatus`, `LineItem`).  The backend
`verify_receipt` endpoint body is only a stub (`pass`) in `LDD.md` §4, and
`receipts.py` is not under `src/`; the transition is modelled from the spec.
-/

/-- `ReceiptStatus` from `LDD.md` (`models/receipt.py`). -/
inductive ReceiptStatus
  | DRAFT
  | VERIFIED
  | REJECTED
deriving DecidableEq

/-- A submitted line item of a verification request (`items` of the
`PUT /verify` payload). -/
structure SubmittedItem where
  description : String
  amount : ℚ
  category_id : Option String
deriving DecidableEq

/-- Receipt state relevant to the `DRAFT -> VERIFIED` transition. -/
structure Receipt where
  id : String
  branch_id : String
  status : ReceiptStatus
  items : List SubmittedItem
  total_amount : ℚ
  verified_by : Option String
deriving DecidableEq

/-- Tolerance of the total check (spec §3: "a fixed tolerance (e.g., 0.01
currency unit)"). -/
def TOLERANCE : ℚ := 1 / 100

/-- Error taxonomy of the verification transition (spec §7). -/
inductive VerifyError
  | validationTotalMismatch
  | validationMissingCategory
  | notDraft
deriving DecidableEq

/-- Validation errors are the recoverable category of spec §7. -/
def VerifyError.isValidation : VerifyError → Bool
  | .validationTotalMismatch => true
  | .validationMissingCategory => true
  | .notDraft => false

/-- Modelled from the spec: backend `verify_receipt` (`receipts.py`), whose
body in `LDD.md` §4 is the stub `pass`.  Spec §4.2: only a `DRAFT` may be
verified; every submitted item must have a non-null category identifier;
the sum of submitted item amounts must equal the submitted total check
within tolerance, a mismatch fails with a validation error; on success the
items are replaced and the status becomes `VERIFIED`. -/
def verify_receipt (receipt : Receipt) (items : List SubmittedItem)
    (total_check : ℚ) (verifier : String) : Except VerifyError Receipt :=
  if receipt.status ≠ .DRAFT then
    .error .notDraft
  else if items.any (fun item => item.category_id.isNone) then
    .error .validationMissingCategory
  else if TOLERANCE < |(items.map SubmittedItem.amount).sum - total_check| then
    .error .validationTotalMismatch
  else
    .ok { receipt with
          status := .VERIFIED
          items := items
          verified_by := some verifier }

/-- The stored receipt after a verification attempt: unchanged whenever the
transition fails ("never mutates state", spec §7). -/
def applyVerify (receipt : Receipt) (items : List SubmittedItem)
    (total_check : ℚ) (verifier : String) : Receipt :=
  match verify_receipt receipt items total_check verifier with
  | .ok updated => updated
  | .error _ => receipt

/-! ## Receipt validation page

Embedding of `handleVerifyAndSave` and the `total` memo from
`frontend/src/app/(dashboard)/dashboard/receipts/[id]/page.tsx`.  The
`amount` field of an editable item models the value of
`Number(item.amount)`: `none` when the parse is not finite (`NaN`, `±Inf`),
`some q` for the finite value `q`.
-/

/-- An editable row of the validation form (`EditableItem`). -/
structure EditableItem where
  description : String
  amount : Option ℚ
  category_id : String
deriving DecidableEq

/-- A normalized item as pushed into `normalizedItems`. -/
structure NormalizedItem where
  description : String
  amount : ℚ
  category_id : String
deriving DecidableEq

/-- Outcome of `handleVerifyAndSave`: either a client-side validation error
(no request sent, state unchanged) or the `PUT /verify` request payload. -/
inductive VerifyOutcome
  | error (msg : String)
  | request (items : List NormalizedItem) (total_check : ℚ)
deriving DecidableEq

/-- The `total` memo: `items.reduce((sum, item) => Number.isFinite(value) ?
sum + value : sum, 0)`. -/
def pageTotal (items : List EditableItem) : ℚ :=
  items.foldl
    (fun sum item =>
      match item.amount with
      | some value => sum + value
      | none => sum)
    0

/-- The validation loop of `handleVerifyAndSave`: description, amount and
category checks in code order, first failure wins. -/
def normalizeItems : List EditableItem → Except String (List NormalizedItem)
  | [] => .ok []
  | item :: rest =>
    if jsTrim item.description = "" then
      .error "Each item must have a description."
    else
      match item.amount with
      | none => .error "Each item must have a valid amount."
      | some amount =>
        if amount < 0 then
          .error "Each item must have a valid amount."
        else if item.category_id = "" then
          .error "Please select category for every item."
        else
          (normalizeItems rest).map
            (fun tail =>
              { description := jsTrim item.description
                amount := amount
                category_id := item.category_id } :: tail)

/-- `handleVerifyAndSave` from `receipts/[id]/page.tsx`: empty-list guard,
per-item validation, then the request with `total_check` set to the same
`total` the page renders. -/
def handleVerifyAndSave (items : List EditableItem) : VerifyOutcome :=
  if items.length = 0 then
    .error "No line items found for verification."
  else
    match normalizeItems items with
    | .error msg => .error msg
    | .ok normalized => .request normalized (pageTotal items)

/-- An item failing one of the three client-side checks: empty (trimmed)
description, non-finite or negative amount, or empty category identifier. -/
def badItem (item : EditableItem) : Bool :=
  jsTrim item.description = "" ||
    (match item.amount with
     | none => true
     | some amount => amount < 0) ||
    item.category_id = ""

/-- The three field-specific error messages of the validation loop. -/
def fieldErrorMessages : List String :=
  ["Each item must have a description.",
   "Each item must have a valid amount.",
   "Please select category for every item."]

/-! ## POS batch processing

Embedding of `process_pos_file` from `TDD.md` §3.2: payment-method mapping
then whole-batch validation of the amount sum.
-/

/-- One input record of a POS file after column standardization. -/
structure PosRecord where
  date : String
  amount : ℚ
  payment_type : String
deriving DecidableEq

/-- One output row of the processed POS batch. -/
structure PosRow where
  date : String
  amount : ℚ
  payment_method : String
deriving DecidableEq

/-- The payment mapping of `process_pos_file`:
`'CASH' if x in ['Cash', 'เงินสด'] else 'TRANSFER'`. -/
def mapPayment (x : String) : String :=
  if x = "Cash" ∨ x = "เงินสด" then "CASH" else "TRANSFER"

/-- Row produced for one POS record. -/
def posRowOf (record : PosRecord) : PosRow :=
  { date := record.date
    amount := record.amount
    payment_method := mapPayment record.payment_type }

/-- `process_pos_file` from `TDD.md` §3.2: map payment methods on every
record, then reject the whole batch with a single `ValueError` when the
amount sum is negative. -/
def process_pos_file (records : List PosRecord) :
    Except String (List PosRow) :=
  if (records.map PosRecord.amount).sum < 0 then
    .error "ยอดขายติดลบไม่ได้"
  else
    .ok (records.map posRowOf)

/-! ## Ledger commit

`insert_verified_receipt` (`bigquery_service.py`) is described in
`walkthrough.md` but its code is not under `src/`; the commit is modelled
from the spec (§4.3): one row per line item, a stable transaction
identifier derived from the receipt identifier plus item ordinal, and
duplicate writes rejected (not errored) at the storage boundary.
-/

/-- An append-only `fact_transactions` row. -/
structure FactRow where
  transaction_id : String
  branch_id : String
  flow_type : String
  category_id : Option String
  amount : ℚ
deriving DecidableEq

/-- Whether the ledger already holds a row for a transaction identifier. -/
def hasTxn (ledger : List FactRow) (txn : String) : Bool :=
  ledger.any (fun row => row.transaction_id = txn)

/-- Modelled from the spec: the storage boundary rejects (as a no-op, not
an error) a write whose transaction identifier is already present. -/
def insertRow (ledger : List FactRow) (row : FactRow) : List FactRow :=
  if hasTxn ledger row.transaction_id then ledger else ledger ++ [row]

/-- Modelled from the spec: the ledger rows of a verified receipt — one
`EXPENSE` row per line item, transaction identifier derived from the
receipt identifier plus the item ordinal. -/
def receiptRows (receipt : Receipt) : List FactRow :=
  receipt.items.enum.map
    (fun pair =>
      { transaction_id := receipt.id ++ "-" ++ toString pair.1
        branch_id := receipt.branch_id
        flow_type := "EXPENSE"
        category_id := pair.2.category_id
        amount := pair.2.amount })

/-- Modelled from the spec: `insert_verified_receipt` commits each row of
the receipt through the duplicate-rejecting storage boundary. -/
def insert_verified_receipt (ledger : List FactRow) (receipt : Receipt) :
    List FactRow :=
  (receiptRows receipt).foldl insertRow ledger

/-! ## Helper lemmas -/

theorem lowerChar_cases (c : Char) :
    lowerChar c = c ∨ lowerChar c ∈ lowercaseLetters := by
  rw [lowerChar.eq_def]
  split <;> first | (left ; rfl) | (right ; decide)

theorem lowerChar_fixes_lowercase : ∀ d ∈ lowercaseLetters, lowerChar d = d := by
  decide

theorem lowercase_not_punct : ∀ d ∈ lowercaseLetters, isPunctChar d = false := by
  decide

theorem lowerChar_idem (c : Char) : lowerChar (lowerChar c) = lowerChar c := by
  rcases lowerChar_cases c with h | h
  · rw [h, h]
  · exact lowerChar_fixes_lowercase _ h

theorem isPunctChar_lowerChar (c : Char) (h : isPunctChar c = false) :
    isPunctChar (lowerChar c) = false := by
  rcases lowerChar_cases c with h2 | h2
  · rw [h2] ; exact h
  · exact lowercase_not_punct _ h2

theorem dropWhile_of_fixed (p : Char → Bool) (y : List Char)
    (hyy : y.dropWhile p = y) :
    (y.rdropWhile p).dropWhile p = y.rdropWhile p := by
  cases h : y.rdropWhile p with
  | nil => simp
  | cons a z =>
    obtain ⟨t, ht⟩ := List.rdropWhile_prefix p y
    rw [h] at ht
    subst ht
    rw [List.cons_append] at hyy
    by_cases hpa : p a = true
    · rw [List.dropWhile_cons_of_pos hpa] at hyy
      have hle := (List.dropWhile_sublist (l := z ++ t) p).length_le
      have hlen := congrArg List.length hyy
      simp only [List.length_cons] at hlen
      omega
    · simp [List.dropWhile_cons_of_neg hpa]

theorem trimChars_idem (l : List Char) : trimChars (trimChars l) = trimChars l := by
  unfold trimChars
  rw [dropWhile_of_fixed isSpaceChar _ (List.dropWhile_idempotent _ _)]
  exact List.rdropWhile_idempotent _ _

theorem map_eq_self_of_mem {f : Char → Char} {l : List Char}
    (h : ∀ c ∈ l, f c = c) : l.map f = l := by
  induction l with
  | nil => rfl
  | cons a t ih =>
    simp only [List.map_cons]
    rw [h a (by simp), ih (fun c hc => h c (by simp [hc]))]

theorem mem_trimChars {c : Char} {l : List Char} (h : c ∈ trimChars l) : c ∈ l := by
  unfold trimChars at h
  have h1 : (l.dropWhile isSpaceChar).rdropWhile isSpaceChar <+: l.dropWhile isSpaceChar :=
    List.rdropWhile_prefix _ _
  have h2 := h1.sublist.subset h
  exact (List.dropWhile_sublist _).subset h2

theorem mem_clean_core {c : Char} {l : List Char}
    (h : c ∈ (l.filter (fun d => !isPunctChar d)).map lowerChar) :
    isPunctChar c = false ∧ lowerChar c = c := by
  obtain ⟨b, hb, rfl⟩ := List.mem_map.mp h
  have hnp : isPunctChar b = false := by
    have := List.of_mem_filter hb
    simpa using this
  exact ⟨isPunctChar_lowerChar b hnp, lowerChar_idem b⟩

theorem clean_text_idem_chars (l : List Char) :
    trimChars (((trimChars ((l.filter (fun d => !isPunctChar d)).map lowerChar)).filter
      (fun d => !isPunctChar d)).map lowerChar) =
    trimChars ((l.filter (fun d => !isPunctChar d)).map lowerChar) := by
  set x := (l.filter (fun d => !isPunctChar d)).map lowerChar with hx
  have hmem : ∀ c ∈ trimChars x, isPunctChar c = false ∧ lowerChar c = c := by
    intro c hc
    exact mem_clean_core (hx ▸ mem_trimChars hc)
  have hfilter : (trimChars x).filter (fun d => !isPunctChar d) = trimChars x := by
    rw [List.filter_eq_self]
    intro a ha
    simp [(hmem a ha).1]
  have hmap : (trimChars x).map lowerChar = trimChars x :=
    map_eq_self_of_mem (fun c hc => (hmem c hc).2)
  rw [hfilter, hmap, trimChars_idem]

theorem hasTxn_append (ledger : List FactRow) (row : FactRow) (txn : String) :
    hasTxn (ledger ++ [row]) txn = (hasTxn ledger txn || (row.transaction_id = txn)) := by
  simp [hasTxn, List.any_append]

theorem hasTxn_insertRow (ledger : List FactRow) (row : FactRow) (txn : String)
    (h : hasTxn ledger txn = true) : hasTxn (insertRow ledger row) txn = true := by
  unfold insertRow
  split
  · exact h
  · rw [hasTxn_append, h] ; rfl

theorem hasTxn_insertRow_self (ledger : List FactRow) (row : FactRow) :
    hasTxn (insertRow ledger row) row.transaction_id = true := by
  unfold insertRow
  split
  · assumption
  · rw [hasTxn_append]
    simp

theorem hasTxn_foldl (rows : List FactRow) (ledger : List FactRow) (txn : String)
    (h : hasTxn ledger txn = true) :
    hasTxn (rows.foldl insertRow ledger) txn = true := by
  induction rows generalizing ledger with
  | nil => exact h
  | cons r rest ih => exact ih _ (hasTxn_insertRow _ _ _ h)

theorem hasTxn_foldl_mem (rows : List FactRow) (ledger : List FactRow) :
    ∀ row ∈ rows, hasTxn (rows.foldl insertRow ledger) row.transaction_id = true := by
  induction rows generalizing ledger with
  | nil => intro row hr ; cases hr
  | cons r rest ih =>
    intro row hr
    simp only [List.foldl_cons]
    rcases List.mem_cons.mp hr with rfl | hmem
    · exact hasTxn_foldl _ _ _ (hasTxn_insertRow_self _ _)
    · exact ih _ row hmem

theorem foldl_insertRow_noop (rows : List FactRow) (ledger : List FactRow)
    (h : ∀ row ∈ rows, hasTxn ledger row.transaction_id = true) :
    rows.foldl insertRow ledger = ledger := by
  induction rows with
  | nil => rfl
  | cons r rest ih =>
    have hr : insertRow ledger r = ledger := by
      unfold insertRow
      rw [h r (by simp)]
      rfl
    simp only [List.foldl_cons, hr]
    exact ih (fun row hrow => h row (by simp [hrow]))

theorem ruleLookup_first (text : String) (rules : List (String × List String))
    (h : ∃ entry ∈ rules, catMatches text entry = true) :
    ∃ pre entry post,
      rules = pre ++ entry :: post ∧
      (∀ e ∈ pre, catMatches text e = false) ∧
      catMatches text entry = true ∧
      ruleLookup rules text = some entry.1 := by
  induction rules with
  | nil => simp at h
  | cons a rest ih =>
    by_cases ha : catMatches text a = true
    · exact ⟨[], a, rest, rfl, by simp, ha, by simp [ruleLookup, ha]⟩
    · have hrest : ∃ entry ∈ rest, catMatches text entry = true := by
        obtain ⟨e, he, hme⟩ := h
        rcases List.mem_cons.mp he with rfl | hmem
        · exact absurd hme ha
        · exact ⟨e, hmem, hme⟩
      obtain ⟨pre, entry, post, heq, hpre, hm, hlook⟩ := ih hrest
      refine ⟨a :: pre, entry, post, by rw [heq] ; rfl, ?_, hm, ?_⟩
      · intro e he
        rcases List.mem_cons.mp he with rfl | hmem
        · exact Bool.not_eq_true _ ▸ (by simpa using ha)
        · exact hpre e hmem
      · simpa [ruleLookup, ha] using hlook

theorem ruleLookup_none (text : String) (rules : List (String × List String))
    (h : ∀ entry ∈ rules, catMatches text entry = false) :
    ruleLookup rules text = none := by
  induction rules with
  | nil => rfl
  | cons a rest ih =>
    have ha := h a (by simp)
    simp only [ruleLookup, ha]
    rw [if_neg (by simp [ha])]
    exact ih (fun e he => h e (by simp [he]))

theorem normalizeItems_error_of_bad (items : List EditableItem)
    (h : ∃ item ∈ items, badItem item = true) :
    ∃ msg, normalizeItems items = .error msg ∧ msg ∈ fieldErrorMessages := by
  induction items with
  | nil => simp at h
  | cons item rest ih =>
    by_cases hd : jsTrim item.description = ""
    · exact ⟨"Each item must have a description.", by simp [normalizeItems, hd],
        by simp [fieldErrorMessages]⟩
    · cases ha : item.amount with
      | none =>
        refine ⟨"Each item must have a valid amount.", ?_, by simp [fieldErrorMessages]⟩
        simp [normalizeItems, hd, ha]
      | some amount =>
        by_cases hneg : amount < 0
        · refine ⟨"Each item must have a valid amount.", ?_, by simp [fieldErrorMessages]⟩
          simp [normalizeItems, hd, ha, hneg]
        · by_cases hc : item.category_id = ""
          · refine ⟨"Please select category for every item.", ?_,
              by simp [fieldErrorMessages]⟩
            simp [normalizeItems, hd, ha, hneg, hc]
          · have hgood : badItem item = false := by
              simp [badItem, hd, ha, hneg, hc]
            have hrest : ∃ it ∈ rest, badItem it = true := by
              obtain ⟨it, hit, hbad⟩ := h
              rcases List.mem_cons.mp hit with rfl | hmem
              · rw [hgood] at hbad ; cases hbad
              · exact ⟨it, hmem, hbad⟩
            obtain ⟨msg, hmsg, hin⟩ := ih hrest
            refine ⟨msg, ?_, hin⟩
            simp [normalizeItems, hd, ha, hneg, hc, hmsg, Except.map]

theorem normalizeItems_ok_good (items : List EditableItem)
    (ns : List NormalizedItem) (h : normalizeItems items = .ok ns) :
    ∀ item ∈ items, badItem item = false := by
  induction items generalizing ns with
  | nil => intro item hit ; cases hit
  | cons item rest ih =>
    intro it hit
    by_cases hd : jsTrim item.description = ""
    · simp [normalizeItems, hd] at h
    · cases ha : item.amount with
      | none => simp [normalizeItems, hd, ha] at h
      | some amount =>
        by_cases hneg : amount < 0
        · simp [normalizeItems, hd, ha, hneg] at h
        · by_cases hc : item.category_id = ""
          · simp [normalizeItems, hd, ha, hneg, hc] at h
          · rcases List.mem_cons.mp hit with rfl | hmem
            · simp [badItem, hd, ha, hneg, hc]
            · simp only [normalizeItems, hd, ha, hneg, hc, if_neg] at h
              cases hrest : normalizeItems rest with
              | error msg => rw [hrest] at h ; simp [Except.map] at h
              | ok tail => exact ih tail hrest it hmem

theorem pageTotal_shift (items : List EditableItem) (a : ℚ) :
    items.foldl
      (fun sum item =>
        match item.amount with
        | some value => sum + value
        | none => sum)
      a = a + pageTotal items := by
  induction items generalizing a with
  | nil => simp [pageTotal]
  | cons item rest ih =>
    simp only [pageTotal, List.foldl_cons]
    rw [ih]
    conv_rhs => rw [ih]
    cases h : item.amount
    · simp [h]
    · simp [h]
      ring

theorem normalizeItems_sum (items : List EditableItem) (ns : List NormalizedItem)
    (h : normalizeItems items = .ok ns) :
    (ns.map NormalizedItem.amount).sum = pageTotal items := by
  induction items generalizing ns with
  | nil =>
    simp only [normalizeItems] at h
    cases h
    simp [pageTotal]
  | cons item rest ih =>
    by_cases hd : jsTrim item.description = ""
    · simp [normalizeItems, hd] at h
    · cases ha : item.amount with
      | none => simp [normalizeItems, hd, ha] at h
      | some amount =>
        by_cases hneg : amount < 0
        · simp [normalizeItems, hd, ha, hneg] at h
        · by_cases hc : item.category_id = ""
          · simp [normalizeItems, hd, ha, hneg, hc] at h
          · simp only [normalizeItems, hd, ha, hneg, hc, if_neg] at h
            cases hrest : normalizeItems rest with
            | error msg => rw [hrest] at h ; simp [Except.map] at h
            | ok tail =>
              rw [hrest] at h
              simp only [Except.map] at h
              cases h
              simp only [List.map_cons, List.sum_cons, pageTotal, List.foldl_cons]
              rw [pageTotal_shift rest, ih tail hrest]
              simp [ha]

/-! ## Claim theorems -/

/-- C1: for every attempt to verify a draft receipt in which the difference
between the sum of the submitted line-item amounts and the submitted total
check exceeds the tolerance, the `DRAFT -> VERIFIED` transition fails with a
validation error and the receipt remains in `DRAFT` status with its state
unchanged. -/
theorem c1_total_mismatch_keeps_draft
    (receipt : Receipt) (items : List SubmittedItem) (total_check : ℚ)
    (verifier : String)
    (hdraft : receipt.status = .DRAFT)
    (hmismatch : TOLERANCE < |(items.map SubmittedItem.amount).sum - total_check|) :
    (∃ e, verify_receipt receipt items total_check verifier = .error e ∧
        e.isValidation = true) ∧
    applyVerify receipt items total_check verifier = receipt ∧
    (applyVerify receipt items total_check verifier).status = .DRAFT := by
  have herr : ∃ e, verify_receipt receipt items total_check verifier = .error e ∧
      e.isValidation = true := by
    unfold verify_receipt
    rw [if_neg (by simp [hdraft])]
    by_cases hcat : items.any (fun item => item.category_id.isNone) = true
    · rw [if_pos hcat]
      exact ⟨_, rfl, rfl⟩
    · rw [if_neg hcat, if_pos hmismatch]
      exact ⟨_, rfl, rfl⟩
  obtain ⟨e, he, hv⟩ := herr
  have happ : applyVerify receipt items total_check verifier = receipt := by
    unfold applyVerify
    rw [he]
  exact ⟨⟨e, he, hv⟩, happ, by rw [happ, hdraft]⟩

/-- Witness for C1: items summing to 215 against a submitted total of 210
fail verification and the receipt stays in its `DRAFT` state. -/
theorem c1_total_mismatch_keeps_draft_witness :
    (∃ e, verify_receipt ⟨"rcp-1", "b-1", .DRAFT, [], 0, none⟩
        [⟨"นม", 215, some "C1"⟩] 210 "user-1" = .error e ∧ e.isValidation = true) ∧
    applyVerify ⟨"rcp-1", "b-1", .DRAFT, [], 0, none⟩
        [⟨"นม", 215, some "C1"⟩] 210 "user-1" = ⟨"rcp-1", "b-1", .DRAFT, [], 0, none⟩ ∧
    (applyVerify ⟨"rcp-1", "b-1", .DRAFT, [], 0, none⟩
        [⟨"นม", 215, some "C1"⟩] 210 "user-1").status = .DRAFT :=
  c1_total_mismatch_keeps_draft _ _ _ _ rfl (by norm_num [TOLERANCE])

/-- C2: for every line-item description containing at least one declared
keyword of the selected business type's rule table, categorization returns
the category of the first matching category/keyword pair in declaration
order with confidence 1.0 and provenance `RULE` (the code's source tag for a
rule match), and the result is the same for every behaviour of the
classification backend. -/
theorem c2_first_rule_match_wins (text business_type : String)
    (h : ∃ entry ∈ rulesFor business_type, catMatches text entry = true) :
    ∃ pre entry post,
      rulesFor business_type = pre ++ entry :: post ∧
      (∀ e ∈ pre, catMatches text e = false) ∧
      catMatches text entry = true ∧
      ∀ backend, categorize_line_item text business_type backend =
        ⟨some entry.1, 1, "RULE"⟩ := by
  obtain ⟨pre, entry, post, heq, hpre, hm, hlook⟩ := ruleLookup_first text _ h
  refine ⟨pre, entry, post, heq, hpre, hm, fun backend => ?_⟩
  unfold categorize_line_item
  rw [hlook]

/-- Witness for C2: a description containing the `C1` keyword Thai for milk
is categorized `C1`/`RULE` both when the backend is unreachable and when it
would respond. -/
theorem c2_first_rule_match_wins_witness :
    categorize_line_item "นมสด" "COFFEE" .unavailable = ⟨some "C1", 1, "RULE"⟩ ∧
    categorize_line_item "นมสด" "COFFEE" (.responds "C9" none) =
      ⟨some "C1", 1, "RULE"⟩ := by
  obtain ⟨pre, entry, post, heq, hpre, hm, hres⟩ :=
    c2_first_rule_match_wins "นมสด" "COFFEE" (by decide)
  have hfst : entry.1 = "C1" := by
    rw [show rulesFor "COFFEE" = COFFEE_KEYWORDS from rfl, COFFEE_KEYWORDS] at heq
    rcases pre with - | ⟨a, pre⟩
    · rw [List.nil_append] at heq
      injection heq with h1 h2
      rw [← h1]
    · injection heq with h1 h2
      have hma := hpre a (by simp)
      rw [← h1] at hma
      have hc1 : catMatches "นมสด"
          ("C1", ["เมล็ด", "นม", "ไซรัป", "น้ำแข็ง", "แก้ว"]) = true := by
        decide
      rw [hc1] at hma
      cases hma
  rw [hres .unavailable, hres (.responds "C9" none), hfst]
  exact ⟨rfl, rfl⟩

/-- C3: for every description matching no declared keyword, if the
classification backend call fails or returns a category identifier outside
the business type's permitted set, categorize fails closed: it returns
category identifier `none`, confidence 0 and the model provenance tag
(`"AI"` in the code, `MODEL` in the spec), without propagating the failure. -/
theorem c3_fail_closed (text business_type : String) (backend : BackendBehavior)
    (hnorule : ∀ entry ∈ rulesFor business_type, catMatches text entry = false)
    (hfail : backend = .unavailable ∨
      ∃ id conf, backend = .responds id conf ∧
        (allowedCategories business_type).contains id = false) :
    categorize_line_item text business_type backend = ⟨none, 0, "AI"⟩ := by
  unfold categorize_line_item
  rw [ruleLookup_none text _ hnorule]
  rcases hfail with rfl | ⟨id, conf, rfl, hout⟩
  · rfl
  · have hmem : id ∉ allowedCategories business_type := by simpa using hout
    simp [ask_vertex_ai, hmem]

/-- Witness for C3: a keyword-free description degrades to the
uncategorized result both for an unreachable backend and for an out-of-set
backend answer. -/
theorem c3_fail_closed_witness :
    categorize_line_item "กระดาษ" "COFFEE" .unavailable = ⟨none, 0, "AI"⟩ ∧
    categorize_line_item "กระดาษ" "COFFEE" (.responds "X9" (some 1)) =
      ⟨none, 0, "AI"⟩ :=
  ⟨c3_fail_closed "กระดาษ" "COFFEE" .unavailable (by decide) (Or.inl rfl),
   c3_fail_closed "กระดาษ" "COFFEE" _ (by decide)
     (Or.inr ⟨"X9", some 1, rfl, by decide⟩)⟩

/-- C4: committing a verified receipt to the ledger twice under the same
derived transaction identifiers produces the same ledger as committing it
once — the retried commit is a no-op that duplicates no row. -/
theorem c4_commit_idempotent (ledger : List FactRow) (receipt : Receipt) :
    insert_verified_receipt (insert_verified_receipt ledger receipt) receipt =
      insert_verified_receipt ledger receipt :=
  foldl_insertRow_noop _ _ (fun row hr => hasTxn_foldl_mem _ _ row hr)

/-- C5: for every verification submitted from the receipt validation page,
any item with an empty trimmed description, a non-finite or negative
amount, or an empty category identifier prevents the verify request and
surfaces one of the three field-specific error messages; the request is
sent only when every item passes all three checks. -/
theorem c5_client_side_validation (items : List EditableItem) :
    (∀ item ∈ items, badItem item = true →
      ∃ msg, handleVerifyAndSave items = .error msg ∧ msg ∈ fieldErrorMessages) ∧
    (∀ normalized total_check,
      handleVerifyAndSave items = .request normalized total_check →
      ∀ item ∈ items, badItem item = false) := by
  constructor
  · intro item hit hbad
    have hne : ¬ items.length = 0 := by
      cases items
      · cases hit
      · simp
    obtain ⟨msg, hmsg, hin⟩ := normalizeItems_error_of_bad items ⟨item, hit, hbad⟩
    refine ⟨msg, ?_, hin⟩
    unfold handleVerifyAndSave
    rw [if_neg hne, hmsg]
  · intro ns tc hreq item hit
    unfold handleVerifyAndSave at hreq
    by_cases hlen : items.length = 0
    · rw [if_pos hlen] at hreq
      cases hreq
    · rw [if_neg hlen] at hreq
      cases hnorm : normalizeItems items with
      | error msg => rw [hnorm] at hreq ; cases hreq
      | ok ns2 => exact normalizeItems_ok_good items ns2 hnorm item hit

/-- Witness for C5: an item with an empty category identifier blocks the
request with a field-specific message. -/
theorem c5_client_side_validation_witness :
    ∃ msg, handleVerifyAndSave [⟨"นม", some 30, ""⟩] = .error msg ∧
      msg ∈ fieldErrorMessages :=
  (c5_client_side_validation [⟨"นม", some 30, ""⟩]).1 ⟨"นม", some 30, ""⟩
    (by simp) (by decide)

/-- C6: every committed POS row carries payment method `CASH` or
`TRANSFER`; the labels `Cash` and Thai for cash map to `CASH`, every other
label to `TRANSFER`; one row is committed per input record, so no record is
dropped for an unmapped label. -/
theorem c6_payment_method_normalization (records : List PosRecord)
    (rows : List PosRow) (hok : process_pos_file records = .ok rows) :
    rows = records.map posRowOf ∧
    rows.length = records.length ∧
    (∀ row ∈ rows, row.payment_method = "CASH" ∨ row.payment_method = "TRANSFER") ∧
    ∀ record ∈ records,
      (mapPayment record.payment_type = "CASH" ∨
        mapPayment record.payment_type = "TRANSFER") ∧
      (mapPayment record.payment_type = "CASH" ↔
        (record.payment_type = "Cash" ∨ record.payment_type = "เงินสด")) := by
  have hrows : rows = records.map posRowOf := by
    unfold process_pos_file at hok
    by_cases hneg : (records.map PosRecord.amount).sum < 0
    · rw [if_pos hneg] at hok
      cases hok
    · rw [if_neg hneg] at hok
      injection hok with h1
      exact h1.symm
  have hmap : ∀ label, mapPayment label = "CASH" ∨ mapPayment label = "TRANSFER" := by
    intro label
    by_cases hc : label = "Cash" ∨ label = "เงินสด"
    · left
      simp [mapPayment, hc]
    · right
      simp [mapPayment, hc]
  refine ⟨hrows, by rw [hrows] ; simp, ?_, ?_⟩
  · intro row hrow
    rw [hrows] at hrow
    obtain ⟨record, hrec, rfl⟩ := List.mem_map.mp hrow
    exact hmap record.payment_type
  · intro record hrec
    refine ⟨hmap record.payment_type, ?_⟩
    by_cases hc : record.payment_type = "Cash" ∨ record.payment_type = "เงินสด"
    · simp [mapPayment, hc]
    · simp [mapPayment, hc]

/-- Witness for C6: a batch with one unrecognized payment label commits one
row with payment method `TRANSFER`. -/
theorem c6_payment_method_normalization_witness :
    ([⟨"2024-05-01", 100, "TRANSFER"⟩] : List PosRow) =
      ([⟨"2024-05-01", 100, "KBank QR"⟩] : List PosRecord).map posRowOf ∧
    ([⟨"2024-05-01", 100, "TRANSFER"⟩] : List PosRow).length =
      ([⟨"2024-05-01", 100, "KBank QR"⟩] : List PosRecord).length ∧
    (∀ row ∈ ([⟨"2024-05-01", 100, "TRANSFER"⟩] : List PosRow),
      row.payment_method = "CASH" ∨ row.payment_method = "TRANSFER") ∧
    ∀ record ∈ ([⟨"2024-05-01", 100, "KBank QR"⟩] : List PosRecord),
      (mapPayment record.payment_type = "CASH" ∨
        mapPayment record.payment_type = "TRANSFER") ∧
      (mapPayment record.payment_type = "CASH" ↔
        (record.payment_type = "Cash" ∨ record.payment_type = "เงินสด")) :=
  c6_payment_method_normalization [⟨"2024-05-01", 100, "KBank QR"⟩]
    [⟨"2024-05-01", 100, "TRANSFER"⟩]
    (by
      unfold process_pos_file
      rw [if_neg (by norm_num)]
      rfl)

/-- C7: a POS batch whose amounts sum to a negative value is rejected as a
whole with the single batch error and no rows are produced. -/
theorem c7_negative_batch_rejected (records : List PosRecord)
    (hneg : (records.map PosRecord.amount).sum < 0) :
    process_pos_file records = .error "ยอดขายติดลบไม่ได้" := by
  unfold process_pos_file
  rw [if_pos hneg]

/-- Witness for C7: a one-record batch with amount -5 is rejected. -/
theorem c7_negative_batch_rejected_witness :
    process_pos_file [⟨"2024-05-01", -5, "Cash"⟩] = .error "ยอดขายติดลบไม่ได้" :=
  c7_negative_batch_rejected [⟨"2024-05-01", -5, "Cash"⟩] (by norm_num)

/-- C8 (amended): `COFFEE` has exactly the nine identifiers C1–C9 and
`RESTAURANT` exactly the seven identifiers F1–F7, the two sets are
disjoint, and the dashboard's category filter options are drawn solely from
the selected branch type's set (empty when the type is unknown); the
receipt validation page's assignment options, however, are the fixed union
of both sets, offered regardless of the receipt's branch type. -/
theorem c8_category_sets :
    COFFEE_CATEGORIES = ["C1", "C2", "C3", "C4", "C5", "C6", "C7", "C8", "C9"] ∧
    RESTAURANT_CATEGORIES = ["F1", "F2", "F3", "F4", "F5", "F6", "F7"] ∧
    (∀ c ∈ COFFEE_CATEGORIES, c ∉ RESTAURANT_CATEGORIES) ∧
    getCategoryOptions (some BranchType.COFFEE) = COFFEE_CATEGORIES ∧
    getCategoryOptions (some BranchType.RESTAURANT) = RESTAURANT_CATEGORIES ∧
    getCategoryOptions none = [] ∧
    assignmentOptionIds = COFFEE_CATEGORIES ++ RESTAURANT_CATEGORIES := by
  decide

/-- C8 counterexample: the receipt validation page offers `F1` as an
assignment option although `F1` is outside the `COFFEE` category set, and
`C1` although `C1` is outside the `RESTAURANT` set — so the assignment
options are not drawn solely from the branch's business type's set. -/
theorem c8_assignment_options_not_per_type :
    ("F1" ∈ assignmentOptionIds ∧ "F1" ∉ getCategoryOptions (some .COFFEE)) ∧
    ("C1" ∈ assignmentOptionIds ∧ "C1" ∉ getCategoryOptions (some .RESTAURANT)) := by
  decide

/-- C9: the normalization applied before keyword matching (strip
punctuation, case-fold, trim) is idempotent: normalizing a string twice
yields exactly the string obtained by normalizing it once. -/
theorem c9_normalization_idempotent (s : String) :
    clean_text (clean_text s) = clean_text s := by
  unfold clean_text
  exact congrArg String.mk (clean_text_idem_chars s.data)

/-- C10: for every verify request sent by the receipt validation page, the
`total_check` field equals the sum of the parsed amounts of the submitted
items, and equals the same reduction that renders the on-screen total. -/
theorem c10_total_check_is_item_sum (items : List EditableItem)
    (normalized : List NormalizedItem) (total_check : ℚ)
    (hreq : handleVerifyAndSave items = .request normalized total_check) :
    total_check = (normalized.map NormalizedItem.amount).sum ∧
    total_check = pageTotal items := by
  unfold handleVerifyAndSave at hreq
  by_cases hlen : items.length = 0
  · rw [if_pos hlen] at hreq
    cases hreq
  · rw [if_neg hlen] at hreq
    cases hnorm : normalizeItems items with
    | error msg => rw [hnorm] at hreq ; cases hreq
    | ok ns2 =>
      rw [hnorm] at hreq
      cases hreq
      exact ⟨(normalizeItems_sum items _ hnorm).symm, rfl⟩

/-- Witness for C10: a one-item request carries a total check equal to the
sum of its submitted amounts and to the rendered total. -/
theorem c10_total_check_is_item_sum_witness :
    pageTotal [⟨"นม", some 5, "C1"⟩] =
      (([⟨"นม", 5, "C1"⟩] : List NormalizedItem).map NormalizedItem.amount).sum ∧
    pageTotal [⟨"นม", some 5, "C1"⟩] = pageTotal [⟨"นม", some 5, "C1"⟩] :=
  c10_total_check_is_item_sum [⟨"นม", some 5, "C1"⟩] [⟨"นม", 5, "C1"⟩]
    (pageTotal [⟨"นม", some 5, "C1"⟩]) rfl

end P49
